import Mathlib

/-!
Verification of the Typography `Base` component
(`src/components/typography/Base/index.tsx`).

The component's pure decision logic is embedded shallowly: React nodes
become a small tree type, the interaction state (expanded / copied /
editing / js-ellipsis flags) becomes explicit state records with step
functions translated from the event handlers, and the ellipsis strategy
selection (`cssEllipsis`, `cssTextOverflow`, `cssLineClamp`, the
`enabledMeasure` flag passed to the `Ellipsis` helper) becomes boolean
functions of the same inputs the source reads.
-/

namespace AntTypographyBase

/-- A React node for our purposes: a leaf, or an element created by
`React.createElement(tag, \x7b\x7d, child)` wrapping a single child, which is
all `wrapperDecorations` ever builds. -/
inductive RNode where
  | text : String → RNode
  | tag : String → RNode → RNode
deriving DecidableEq, Repr

/-- The decoration flags destructured by `wrapperDecorations`
(`\x7b mark, code, underline, delete: del, strong, keyboard, italic \x7d`).
The source accepts `boolean | undefined`; only truthiness is used, so each
flag is a `Bool`. -/
structure DecorationFlags where
  mark : Bool
  code : Bool
  underline : Bool
  delete : Bool
  strong : Bool
  keyboard : Bool
  italic : Bool
deriving DecidableEq, Repr

/-- The inner `wrap(needed, tag)` helper: when the flag holds, replace the
current content with a new element of the given tag whose child is the
previous current content. -/
def wrap (needed : Bool) (tagName : String) (currentContent : RNode) : RNode :=
  if needed then RNode.tag tagName currentContent else currentContent

/-- `wrapperDecorations(props, content)`: applies `wrap` successively for
strong, underline, delete, code, mark, keyboard, italic, in that source
order. Each call wraps the accumulated result, so a later wrapper becomes
an ancestor of an earlier one. -/
def wrapperDecorations (p : DecorationFlags) (content : RNode) : RNode :=
  wrap p.italic "i"
    (wrap p.keyboard "kbd"
      (wrap p.mark "mark"
        (wrap p.code "code"
          (wrap p.delete "del"
            (wrap p.underline "u"
              (wrap p.strong "strong" content))))))

/-- The tag names of the active decorations, in the order the source
applies them (first applied is first in the list, hence innermost). -/
def decorationOrder (p : DecorationFlags) : List String :=
  (if p.strong then ["strong"] else []) ++
  (if p.underline then ["u"] else []) ++
  (if p.delete then ["del"] else []) ++
  (if p.code then ["code"] else []) ++
  (if p.mark then ["mark"] else []) ++
  (if p.keyboard then ["kbd"] else []) ++
  (if p.italic then ["i"] else [])

/-! ### Ellipsis strategy selection (lines 219-263 of the source) -/

/-- `const \x7b rows = 1 \x7d = ellipsisConfig` (line 229): the row count with
its destructuring default. The source type is `number`; we model the
non-negative values. -/
def rowsOf (rows : Option Nat) : Nat :=
  rows.getD 1

/-- `mergedEnableEllipsis = enableEllipsis && !expanded` (line 226). -/
def mergedEnableEllipsis (enableEllipsis expanded : Bool) : Bool :=
  enableEllipsis && !expanded

/-- `cssEllipsis` (lines 231-258): false when ellipsis is disabled or any
of suffix / onEllipsis / expandable / editable / copyable is active;
otherwise the relevant style-support probe, chosen by `rows === 1`.
`suffixDefined` is `ellipsisConfig.suffix !== undefined`, `hasOnEllipsis`
the truthiness of `ellipsisConfig.onEllipsis`. -/
def cssEllipsis (merged suffixDefined hasOnEllipsis expandable enableEdit
    enableCopy : Bool) (rows : Nat)
    (isTextOverflowSupport isLineClampSupport : Bool) : Bool :=
  if !merged || suffixDefined || hasOnEllipsis || expandable || enableEdit
      || enableCopy then
    false
  else if rows == 1 then
    isTextOverflowSupport
  else
    isLineClampSupport

/-- `cssTextOverflow = mergedEnableEllipsis && rows === 1 && cssEllipsis`
(line 262). -/
def cssTextOverflow (merged : Bool) (rows : Nat) (css : Bool) : Bool :=
  merged && rows == 1 && css

/-- `cssLineClamp = mergedEnableEllipsis && rows > 1 && cssEllipsis`
(line 263). -/
def cssLineClamp (merged : Bool) (rows : Nat) (css : Bool) : Bool :=
  merged && decide (rows > 1) && css

/-- The `enabledMeasure` prop handed to the `Ellipsis` measurement helper
(line 439): `mergedEnableEllipsis && !cssEllipsis`, i.e. script-measured
truncation is used. -/
def enabledMeasure (merged css : Bool) : Bool :=
  merged && !css

/-! ### Ellipsis interaction state (lines 219-296) -/

/-- Callbacks the ellipsis handlers can invoke. -/
inductive EllipsisEmit where
  | onExpand
  | onEllipsis (value : Bool)
deriving DecidableEq, Repr

/-- The component state touched by the ellipsis handlers. -/
structure EllipsisState where
  expanded : Bool
  isJsEllipsis : Bool
  ellipsisWidth : Nat
deriving DecidableEq, Repr

/-- `onJsEllipsis` (lines 277-284): store the reported value, and invoke
`ellipsisConfig.onEllipsis` only if it differs from the current
`isJsEllipsis` state. Returns the new `isJsEllipsis` value and the
emitted callbacks. -/
def onJsEllipsis (isJsEllipsis jsEllipsis : Bool) : Bool × List EllipsisEmit :=
  (jsEllipsis,
    if isJsEllipsis != jsEllipsis then [EllipsisEmit.onEllipsis jsEllipsis]
    else [])

/-- Events that can reach the ellipsis-related state of a mounted
instance. -/
inductive EllipsisEvent where
  | expandClick
  | resize (offsetWidth : Nat)
  | jsMeasure (jsEllipsis : Bool)
deriving DecidableEq, Repr

/-- One event step. `expandClick` is `onExpandClick` (lines 266-269):
`setExpanded(true)` then `ellipsisConfig.onExpand?.(e)`. `resize` is
`onResize` (lines 272-274). `jsMeasure` routes through `onJsEllipsis`. -/
def stepEllipsis (s : EllipsisState) :
    EllipsisEvent → EllipsisState × List EllipsisEmit
  | EllipsisEvent.expandClick =>
      ({ s with expanded := true }, [EllipsisEmit.onExpand])
  | EllipsisEvent.resize w =>
      ({ s with ellipsisWidth := w }, [])
  | EllipsisEvent.jsMeasure b =>
      let r := onJsEllipsis s.isJsEllipsis b
      ({ s with isJsEllipsis := r.1 }, r.2)

/-- Run a sequence of events from a state (callbacks dropped). -/
def runEllipsis (s : EllipsisState) (events : List EllipsisEvent) :
    EllipsisState :=
  events.foldl (fun acc e => (stepEllipsis acc e).1) s

/-! ### Copy controller (lines 188-216) -/

/-- The reset delay hard-coded in `setTimeout(..., 3000)` (line 211). -/
def copyDelay : Nat := 3000

/-- Copy-related state: the `copied` flag and the pending reset timer.
`copyIdRef` holds at most one live timeout because every `setTimeout` is
preceded by `cleanCopyId`, so the pending timer is an `Option` of its
absolute expiry time. -/
structure CopyState where
  copied : Bool
  pendingReset : Option Nat
deriving DecidableEq, Repr

/-- The state effect of `onCopyClick` at absolute time `now` (lines
197-214): `setCopied(true)`, then `cleanCopyId()` cancels any pending
timer, then a fresh 3000ms reset is scheduled. -/
def onCopyClick (now : Nat) (_s : CopyState) : CopyState :=
  { copied := true, pendingReset := some (now + copyDelay) }

/-- The scheduled timeout callback (lines 209-211) firing: if a reset is
pending and its time has come, `setCopied(false)` and the timer is spent. -/
def fireCopyReset (now : Nat) (s : CopyState) : CopyState :=
  match s.pendingReset with
  | some t => if t ≤ now then { copied := false, pendingReset := none } else s
  | none => s

/-- `React.useEffect(() => cleanCopyId, [])` (line 216): on unmount,
`clearTimeout` cancels any pending reset. -/
def cleanCopyId (s : CopyState) : CopyState :=
  { s with pendingReset := none }

/-- Side effects performed by `onCopyClick`, in their source order. -/
inductive CopyEffect where
  | writeClipboard (text : String)
  | setCopied (value : Bool)
  | clearTimer
  | scheduleReset (delay : Nat)
  | onCopy
deriving DecidableEq, Repr

/-- The ordered effect list of `onCopyClick` (lines 197-214).
`configText` is `copyConfig.text`; `children` stands for
`String(children)`, the stringified rendered content. When `configText`
is undefined the source first assigns `copyConfig.text = String(children)`
and then copies `copyConfig.text || ''`; since `s || ''` is `s` for every
string (the empty string maps to itself), the written text is
`configText.getD children`. -/
def onCopyClickEffects (configText : Option String) (children : String) :
    List CopyEffect :=
  [CopyEffect.writeClipboard (configText.getD children),
   CopyEffect.setCopied true,
   CopyEffect.clearTimer,
   CopyEffect.scheduleReset copyDelay,
   CopyEffect.onCopy]

/-! ### Edit controller (lines 151-186, 300-316, 345-365, 435) -/

/-- Callbacks the edit handlers can invoke. -/
inductive EditEmit where
  | onStart
  | onChange (value : String)
  | onCancel
deriving DecidableEq, Repr

/-- Modelled from the spec: `useMergedState` is imported from `rc-util`
and its source is not under `src/`. Per the spec, the editing flag is
"controlled if an explicit value is supplied, otherwise locally owned":
the displayed value mirrors the external `editConfig.editing` whenever it
is defined, and falls back to the internally owned state otherwise. -/
def mergedState (external : Option Bool) (internalState : Bool) : Bool :=
  external.getD internalState

/-- `triggerEdit` (lines 158-164): invoke `onStart` when entering edit,
then `setEditing(edit)` updates the internally owned state. Returns the
requested internal state and the emitted callbacks. -/
def triggerEdit (edit : Bool) : Bool × List EditEmit :=
  (edit, if edit then [EditEmit.onStart] else [])

/-- `onEditClick` (lines 173-176): `triggerEdit(true)`. -/
def onEditClick : Bool × List EditEmit :=
  triggerEdit true

/-- `onEditChange` (lines 178-181): `editConfig.onChange?.(value)` then
`triggerEdit(false)`. -/
def onEditChange (value : String) : Bool × List EditEmit :=
  let t := triggerEdit false
  (t.1, EditEmit.onChange value :: t.2)

/-- `onEditCancel` (lines 183-186): `editConfig.onCancel?.()` then
`triggerEdit(false)`. -/
def onEditCancel : Bool × List EditEmit :=
  let t := triggerEdit false
  (t.1, EditEmit.onCancel :: t.2)

/-- The two member values of `EditConfig.triggerType`. -/
inductive TriggerType where
  | icon
  | text
deriving DecidableEq, Repr

/-- `const \x7b triggerType = ['icon'] \x7d = editConfig` (line 156). -/
def triggerTypeOf (cfg : Option (List TriggerType)) : List TriggerType :=
  cfg.getD [TriggerType.icon]

/-- `renderEdit` (lines 345-365): nothing when edit is disabled; else the
edit icon control (whose click handler is `onEditClick`) exactly when
`triggerType.includes('icon')`. -/
def renderEdit (enableEdit : Bool) (cfg : Option (List TriggerType)) :
    Option (Bool × List EditEmit) :=
  if !enableEdit then none
  else if (triggerTypeOf cfg).contains TriggerType.icon then some onEditClick
  else none

/-- The `onClick` bound on the text body (line 435):
`triggerType.includes('text') ? onEditClick : null`. -/
def typographyOnClick (cfg : Option (List TriggerType)) :
    Option (Bool × List EditEmit) :=
  if (triggerTypeOf cfg).contains TriggerType.text then some onEditClick
  else none

/-! ### Theorems -/

/-- Expanded-flag persistence along an event trace. -/
lemma runEllipsis_expanded_mono (events : List EllipsisEvent) :
    ∀ s : EllipsisState, s.expanded = true →
      (runEllipsis s events).expanded = true := by
  induction events with
  | nil => intro s h; exact h
  | cons e es ih =>
      intro s h
      have hstep : (stepEllipsis s e).1.expanded = true := by
        cases e <;> simp [stepEllipsis, onJsEllipsis] <;> exact h
      exact ih _ hstep

/-- C1 counterexample: with `strong=true` and `italic=true` (all other
flags off), `wrapperDecorations` nests italic as the OUTER tag and strong
as the INNER tag, not strong-outer / italic-inner as claimed: each `wrap`
call makes the new tag the parent of the accumulated content, so the
last-applied wrapper (`i`) is outermost. -/
theorem wrapperDecorations_strong_italic_cex :
    wrapperDecorations
      { mark := false, code := false, underline := false, delete := false,
        strong := true, keyboard := false, italic := true }
      (RNode.text "x") =
      RNode.tag "i" (RNode.tag "strong" (RNode.text "x")) ∧
    wrapperDecorations
      { mark := false, code := false, underline := false, delete := false,
        strong := true, keyboard := false, italic := true }
      (RNode.text "x") ≠
      RNode.tag "strong" (RNode.tag "i" (RNode.text "x")) := by
  refine ⟨rfl, ?_⟩
  decide

/-- C1 (amended): for every fixed set of decoration flags,
`wrapperDecorations` nests the content in the corresponding semantic tags
in the fixed deterministic application order strong, underline,
strike-through, code, highlight, keyboard, italic — each wrapper
enclosing the result so far, so later wrappers are outermost; in
particular with `strong=true` and `italic=true` the result nests as
italic-outer, strong-inner. -/
theorem wrapperDecorations_order (p : DecorationFlags) (content : RNode) :
    wrapperDecorations p content =
      (decorationOrder p).foldl (fun acc t => RNode.tag t acc) content ∧
    wrapperDecorations
      { mark := false, code := false, underline := false, delete := false,
        strong := true, keyboard := false, italic := true } content =
      RNode.tag "i" (RNode.tag "strong" content) := by
  constructor
  · rcases p with ⟨m, c, u, d, s, k, i⟩
    cases m <;> cases c <;> cases u <;> cases d <;> cases s <;> cases k <;>
      cases i <;> rfl
  · rfl

/-- C2: for a mounted instance, the only event transition that changes
`expanded` sets it to `true`, namely expand-control activation, which
emits `onExpand`; once `expanded` holds it persists along every event
trace (width changes included) and `mergedEnableEllipsis` is `false`
for every subsequent render. -/
theorem expanded_one_way (s : EllipsisState) (e : EllipsisEvent)
    (events : List EllipsisEvent) (enableEllipsis : Bool)
    (h : s.expanded = true) :
    ((stepEllipsis s e).1.expanded = true ↔
      (s.expanded = true ∨ e = EllipsisEvent.expandClick)) ∧
    (stepEllipsis s EllipsisEvent.expandClick).2 = [EllipsisEmit.onExpand] ∧
    (runEllipsis s events).expanded = true ∧
    mergedEnableEllipsis enableEllipsis (runEllipsis s events).expanded =
      false := by
  refine ⟨?_, rfl, runEllipsis_expanded_mono events s h, ?_⟩
  · cases e <;> simp [stepEllipsis, onJsEllipsis]
  · rw [runEllipsis_expanded_mono events s h]
    simp [mergedEnableEllipsis]

/-- Witness for C2 at a concrete expanded state and trace. -/
theorem expanded_one_way_witness :
    ((stepEllipsis ⟨true, false, 0⟩ (EllipsisEvent.resize 5)).1.expanded =
        true ↔
      ((⟨true, false, 0⟩ : EllipsisState).expanded = true ∨
        EllipsisEvent.resize 5 = EllipsisEvent.expandClick)) ∧
    (stepEllipsis (⟨true, false, 0⟩ : EllipsisState)
        EllipsisEvent.expandClick).2 = [EllipsisEmit.onExpand] ∧
    (runEllipsis ⟨true, false, 0⟩
        [EllipsisEvent.resize 7, EllipsisEvent.jsMeasure true]).expanded =
      true ∧
    mergedEnableEllipsis true
      (runEllipsis ⟨true, false, 0⟩
        [EllipsisEvent.resize 7, EllipsisEvent.jsMeasure true]).expanded =
      false :=
  expanded_one_way ⟨true, false, 0⟩ (EllipsisEvent.resize 5)
    [EllipsisEvent.resize 7, EllipsisEvent.jsMeasure true] true rfl

/-- C3: when ellipsis is enabled and not expanded, the presence of any of
a configured suffix, an `onEllipsis` callback, `expandable`, enabled
editable or enabled copyable makes `cssEllipsis` false and turns on
script-measured truncation (`enabledMeasure`), whatever the row count and
the style-support probes. -/
theorem cssEllipsis_blocked (enableEllipsis expanded suffixDefined
    hasOnEllipsis expandable enableEdit enableCopy tos lcs : Bool)
    (rows : Nat)
    (henabled : mergedEnableEllipsis enableEllipsis expanded = true)
    (hblock : (suffixDefined || hasOnEllipsis || expandable || enableEdit ||
      enableCopy) = true) :
    cssEllipsis (mergedEnableEllipsis enableEllipsis expanded) suffixDefined
      hasOnEllipsis expandable enableEdit enableCopy rows tos lcs = false ∧
    enabledMeasure (mergedEnableEllipsis enableEllipsis expanded)
      (cssEllipsis (mergedEnableEllipsis enableEllipsis expanded)
        suffixDefined hasOnEllipsis expandable enableEdit enableCopy rows tos
        lcs) = true := by
  have h1 : (!(mergedEnableEllipsis enableEllipsis expanded) || suffixDefined
      || hasOnEllipsis || expandable || enableEdit || enableCopy) = true := by
    rw [henabled]
    simpa using hblock
  have hcss : cssEllipsis (mergedEnableEllipsis enableEllipsis expanded)
      suffixDefined hasOnEllipsis expandable enableEdit enableCopy rows tos
      lcs = false := by
    unfold cssEllipsis
    rw [h1]
    simp
  refine ⟨hcss, ?_⟩
  unfold enabledMeasure
  rw [hcss, henabled]
  rfl

/-- Witness for C3: suffix configured, rows = 1, both probes supported. -/
theorem cssEllipsis_blocked_witness :
    cssEllipsis (mergedEnableEllipsis true false) true false false false false
      1 true true = false ∧
    enabledMeasure (mergedEnableEllipsis true false)
      (cssEllipsis (mergedEnableEllipsis true false) true false false false
        false 1 true true) = true :=
  cssEllipsis_blocked true false true false false false false true true 1 rfl
    rfl

/-- C4 counterexample: with ellipsis enabled, not expanded, no blocking
feature, `rows = 0` and line-clamp supported, neither native mode is
selected (`cssTextOverflow` and `cssLineClamp` are both false) yet
script-measured truncation is NOT used either (`enabledMeasure` is
false), because `cssEllipsis` takes the `rows !== 1` branch and returns
the line-clamp probe. This refutes "in all other cases the component
falls back to script-measured truncation". -/
theorem nativeTruncation_rows_zero_cex :
    cssEllipsis (mergedEnableEllipsis true false) false false false false
      false 0 true true = true ∧
    cssTextOverflow (mergedEnableEllipsis true false) 0
      (cssEllipsis (mergedEnableEllipsis true false) false false false false
        false 0 true true) = false ∧
    cssLineClamp (mergedEnableEllipsis true false) 0
      (cssEllipsis (mergedEnableEllipsis true false) false false false false
        false 0 true true) = false ∧
    enabledMeasure (mergedEnableEllipsis true false)
      (cssEllipsis (mergedEnableEllipsis true false) false false false false
        false 0 true true) = false := by
  decide

/-- C4 (amended): when ellipsis is enabled, not expanded, no blocking
feature is configured and `rows ≥ 1`: native single-line truncation is
selected exactly when `rows = 1` and text-overflow is supported; native
multi-line truncation is selected exactly when `rows > 1` and line-clamp
is supported; in all other cases (still with `rows ≥ 1`) the component
falls back to script-measured truncation. (For `rows < 1` with line-clamp
supported, neither holds: see the counterexample.) -/
theorem nativeTruncationSelection (enableEllipsis expanded tos lcs : Bool)
    (rows : Nat)
    (henabled : mergedEnableEllipsis enableEllipsis expanded = true)
    (hrows : 1 ≤ rows) :
    (cssTextOverflow (mergedEnableEllipsis enableEllipsis expanded) rows
        (cssEllipsis (mergedEnableEllipsis enableEllipsis expanded) false
          false false false false rows tos lcs) = true ↔
      (rows = 1 ∧ tos = true)) ∧
    (cssLineClamp (mergedEnableEllipsis enableEllipsis expanded) rows
        (cssEllipsis (mergedEnableEllipsis enableEllipsis expanded) false
          false false false false rows tos lcs) = true ↔
      (1 < rows ∧ lcs = true)) ∧
    (¬(rows = 1 ∧ tos = true) → ¬(1 < rows ∧ lcs = true) →
      enabledMeasure (mergedEnableEllipsis enableEllipsis expanded)
        (cssEllipsis (mergedEnableEllipsis enableEllipsis expanded) false
          false false false false rows tos lcs) = true) := by
  rw [henabled]
  rcases Nat.eq_or_lt_of_le hrows with h1 | h1
  · rw [← h1]
    cases tos <;> cases lcs <;>
      simp [cssEllipsis, cssTextOverflow, cssLineClamp, enabledMeasure]
  · have hne : (rows == 1) = false := by
      simp only [beq_eq_false_iff_ne, ne_eq]
      omega
    have hgt : decide (rows > 1) = true := by
      simpa using h1
    cases tos <;> cases lcs <;>
      simp [cssEllipsis, cssTextOverflow, cssLineClamp, enabledMeasure, hne,
        hgt, h1] <;> omega

/-- Witness for C4 at `rows = 2` with neither style supported:
script-measured truncation is selected. -/
theorem nativeTruncationSelection_witness :
    enabledMeasure (mergedEnableEllipsis true false)
      (cssEllipsis (mergedEnableEllipsis true false) false false false false
        false 2 false false) = true :=
  (nativeTruncationSelection true false false false 2 rfl (by decide)).2.2
    (by decide) (by decide)

/-- C5: triggering copy sets `copied` true immediately and leaves exactly
one pending reset due `copyDelay` (3000) ms later, whatever reset was
pending before — so a re-trigger before expiry replaces (restarts) the
window rather than stacking a second timer; a pending reset that reaches
its expiry sets `copied` false and clears the timer; unmount cleanup
cancels any pending reset. -/
theorem copyResetTimer (s : CopyState) (now t : Nat) :
    (onCopyClick now s).copied = true ∧
    onCopyClick now s =
      { copied := true, pendingReset := some (now + copyDelay) } ∧
    (s.pendingReset = some t → t ≤ now →
      fireCopyReset now s = { copied := false, pendingReset := none }) ∧
    (cleanCopyId s).pendingReset = none := by
  refine ⟨rfl, rfl, ?_, rfl⟩
  intro hp hle
  simp [fireCopyReset, hp, hle]

/-- Witness for C5: a second trigger at time 3500 while a reset was
pending for time 3000 yields a single fresh reset at 6500; a pending
reset fires at its expiry; cleanup clears the timer. -/
theorem copyResetTimer_witness :
    (onCopyClick 3500 ⟨true, some 3000⟩).copied = true ∧
    onCopyClick 3500 ⟨true, some 3000⟩ =
      { copied := true, pendingReset := some 6500 } ∧
    fireCopyReset 3500 ⟨true, some 3000⟩ =
      { copied := false, pendingReset := none } ∧
    (cleanCopyId ⟨true, some 3000⟩).pendingReset = none :=
  ⟨(copyResetTimer ⟨true, some 3000⟩ 3500 3000).1,
   (copyResetTimer ⟨true, some 3000⟩ 3500 3000).2.1,
   (copyResetTimer ⟨true, some 3000⟩ 3500 3000).2.2.1 rfl (by decide),
   (copyResetTimer ⟨true, some 3000⟩ 3500 3000).2.2.2⟩

/-- C6: when `editConfig.editing` is supplied externally, the displayed
editing state always mirrors the external value — before and after any of
the trigger / save / cancel handlers runs — while the handlers still emit
exactly their side-effect callbacks (`onStart`, `onChange value`,
`onCancel`). -/
theorem controlledEditingMirrors (b internalState : Bool) (value : String) :
    mergedState (some b) internalState = b ∧
    mergedState (some b) onEditClick.1 = b ∧
    mergedState (some b) (onEditChange value).1 = b ∧
    mergedState (some b) onEditCancel.1 = b ∧
    onEditClick.2 = [EditEmit.onStart] ∧
    (onEditChange value).2 = [EditEmit.onChange value] ∧
    onEditCancel.2 = [EditEmit.onCancel] :=
  ⟨rfl, rfl, rfl, rfl, rfl, rfl, rfl⟩

/-- C7: the copy handler writes the configured text when one is
configured and the stringified children otherwise, and `onCopy` is
invoked strictly after the clipboard write in the handler's effect
order. -/
theorem copyTextResolution (s c : String) (o : Option String) :
    (onCopyClickEffects (some s) c).head? =
      some (CopyEffect.writeClipboard s) ∧
    (onCopyClickEffects none c).head? =
      some (CopyEffect.writeClipboard c) ∧
    ∃ pre, onCopyClickEffects o c = pre ++ [CopyEffect.onCopy] ∧
      CopyEffect.writeClipboard (o.getD c) ∈ pre := by
  refine ⟨rfl, rfl,
    ⟨[CopyEffect.writeClipboard (o.getD c), CopyEffect.setCopied true,
      CopyEffect.clearTimer, CopyEffect.scheduleReset copyDelay], rfl, ?_⟩⟩
  simp

/-- C8: the edit icon control is rendered exactly when edit is enabled
and `triggerType` (defaulting to `['icon']`) contains `icon`; the text
body's click handler is the edit trigger (which starts editing, emitting
`onStart`) exactly when `triggerType` contains `text`, and `null`
otherwise. -/
theorem editTriggerControls (enableEdit : Bool)
    (cfg : Option (List TriggerType)) :
    ((renderEdit enableEdit cfg).isSome = true ↔
      (enableEdit = true ∧
        (triggerTypeOf cfg).contains TriggerType.icon = true)) ∧
    triggerTypeOf none = [TriggerType.icon] ∧
    typographyOnClick cfg =
      (if (triggerTypeOf cfg).contains TriggerType.text = true then
        some (true, [EditEmit.onStart]) else none) := by
  refine ⟨?_, rfl, ?_⟩
  · cases h : (triggerTypeOf cfg).contains TriggerType.icon <;>
      cases enableEdit <;> simp_all [renderEdit]
  · cases h : (triggerTypeOf cfg).contains TriggerType.text <;>
      simp_all [typographyOnClick, onEditClick, triggerEdit]

/-- C9: when the ellipsis config specifies no row count, `rows` defaults
to 1, and (with ellipsis enabled, not expanded, and no blocking feature)
the native single-line path is selected exactly when text-overflow is
supported, while the multi-line clamp path is never selected. -/
theorem rowsDefaultSingleLine :
    rowsOf none = 1 ∧
    (∀ tos lcs : Bool,
      cssTextOverflow (mergedEnableEllipsis true false) (rowsOf none)
        (cssEllipsis (mergedEnableEllipsis true false) false false false
          false false (rowsOf none) tos lcs) = tos) ∧
    (∀ tos lcs : Bool,
      cssLineClamp (mergedEnableEllipsis true false) (rowsOf none)
        (cssEllipsis (mergedEnableEllipsis true false) false false false
          false false (rowsOf none) tos lcs) = false) := by
  refine ⟨rfl, ?_, ?_⟩ <;> intro tos lcs <;> cases tos <;> cases lcs <;> rfl

/-- C10: `onJsEllipsis` stores the reported value and invokes
`onEllipsis` exactly when the report differs from the current
`isJsEllipsis` state; a report equal to the current state leaves the
state unchanged and emits nothing. -/
theorem onJsEllipsis_change_only (isJsEllipsis jsEllipsis : Bool) :
    onJsEllipsis isJsEllipsis jsEllipsis =
      (jsEllipsis,
        if isJsEllipsis == jsEllipsis then []
        else [EllipsisEmit.onEllipsis jsEllipsis]) ∧
    onJsEllipsis isJsEllipsis isJsEllipsis = (isJsEllipsis, []) ∧
    ((onJsEllipsis isJsEllipsis jsEllipsis).2 = [] ↔
      isJsEllipsis = jsEllipsis) := by
  cases isJsEllipsis <;> cases jsEllipsis <;> simp [onJsEllipsis]

end AntTypographyBase
